import Mathlib

/-!
Shallow embedding of `src/app/lib/runtime/action-runner.ts` (the action
execution orchestrator of the `chef` repository) and verification of the
frozen claims about it.

JavaScript strings are modelled as Lean `String`s (a structure over
`List Char`); the JS built-ins `startsWith`, `slice`, first-occurrence
`replace`, `split('\n')`, `includes` and the regex `\bconvex\b` are embedded
as executable functions on character lists below.  Asynchronous promise
chaining is embedded as an explicit resolved/rejected state with `then` /
`catch` combinators mirroring JS promise semantics.
-/

namespace ActionRunner

/-- JS `String.prototype.startsWith`: the pattern's characters are a prefix of
the string's characters. -/
def jsStartsWith (s pre : String) : Bool :=
  pre.data.isPrefixOf s.data

/-- JS `String.prototype.slice(n)` for a nonnegative index: drop the first `n`
characters. -/
def jsSlice (s : String) (n : Nat) : String :=
  ⟨s.data.drop n⟩

/-- JS `String.prototype.includes`: the pattern occurs as a contiguous
substring. -/
def jsIncludes (sub : List Char) : List Char → Bool
  | [] => sub.isEmpty
  | c :: rest => sub.isPrefixOf (c :: rest) || jsIncludes sub rest

/-- JS `String.prototype.replace` with a string pattern: replaces only the
FIRST occurrence of `pat`. -/
def replaceFirstList (pat rep : List Char) : List Char → List Char
  | [] => []
  | c :: rest =>
    if pat.isPrefixOf (c :: rest) then rep ++ (c :: rest).drop pat.length
    else c :: replaceFirstList pat rep rest

/-- String wrapper for `replaceFirstList`. -/
def jsReplaceFirst (s pat rep : String) : String :=
  ⟨replaceFirstList pat.data rep.data s.data⟩

/-- JS `String.prototype.split('\n')`: split on every newline character,
keeping empty segments. -/
def splitNl : List Char → List (List Char)
  | [] => [[]]
  | c :: rest =>
    match splitNl rest with
    | [] => [[c]]
    | l :: ls => if c = '\n' then [] :: l :: ls else (c :: l) :: ls

/-- JS `Array.prototype.join('\n')`. -/
def joinNl : List (List Char) → List Char
  | [] => []
  | [l] => l
  | l :: ls => l ++ '\n' :: joinNl ls

/-- JS regex word character `\w`: ASCII letters, digits and underscore. -/
def isWordChar (c : Char) : Bool :=
  c.isAlpha || c.isDigit || c = '_'

/-- Whether the regex `\bconvex\b` matches at the head of `cs`, where `prev`
is the character immediately before `cs` (none at the start of the string). -/
def convexAt (prev : Option Char) (cs : List Char) : Bool :=
  match cs with
  | 'c' :: 'o' :: 'n' :: 'v' :: 'e' :: 'x' :: rest =>
    (prev.all fun c => !isWordChar c) && (rest.head?.all fun c => !isWordChar c)
  | _ => false

/-- Whether the regex `\bconvex\b` matches anywhere in the remaining
characters, given the character just before them. -/
def hasWordConvexAux (prev : Option Char) : List Char → Bool
  | [] => false
  | c :: rest => convexAt prev (c :: rest) || hasWordConvexAux (some c) rest

/-- JS `content.match(/\bconvex\b/)` tested for success. -/
def hasWordConvex (cs : List Char) : Bool :=
  hasWordConvexAux none cs

/-- Action discriminator, from `BoltAction['type']` as dispatched in
`#executeAction`. -/
inductive ActionType
  | shell
  | npmInstall
  | npmExec
  | file
  | build
  | start
  | toolUse
  | convex
  deriving DecidableEq, Repr

/-- `ActionStatus` from the source. -/
inductive ActionStatus
  | pending
  | running
  | complete
  | aborted
  | failed
  deriving DecidableEq, Repr

/-- Runtime state of one action (`ActionState` in the source).  `BoltAction`
itself lives outside src/; of its fields only `type` and `content` are used by
the orchestrator logic under verification, so those are the ones embedded.
`aborted` models the live `abortSignal.aborted` bit of the action's
`AbortController`. -/
structure ActionState where
  type : ActionType
  content : String
  status : ActionStatus
  error : Option String
  executed : Bool
  aborted : Bool
  deriving DecidableEq, Repr

/-- The abort capability installed by `addAction`: it fires the action's
`AbortController` (setting `abortSignal.aborted`) and updates the action's
status to `aborted`. -/
def abortAction (a : ActionState) : ActionState :=
  { a with aborted := true, status := ActionStatus.aborted }

/-- Errors thrown by execution strategies: either a classified
`ActionCommandError` (carrying header and captured output) or any other
JS exception, identified by its message text. -/
inductive RunError
  | commandError (header output : String)
  | genericError (msg : String)
  deriving DecidableEq, Repr

/-- JS `err instanceof ActionCommandError`. -/
def RunError.isCommandError : RunError → Bool
  | .commandError _ _ => true
  | .genericError _ => false

/-- The formatted `message` built in the `ActionCommandError` constructor:
`Failed To Execute Shell Command: ${message}\n\nOutput:\n${output}`. -/
def formattedMessage (header output : String) : String :=
  "Failed To Execute Shell Command: " ++ header ++ "\n\nOutput:\n" ++ output

/-- The payload passed to the `onAlert` callback. -/
structure ActionAlert where
  type : String
  title : String
  description : String
  content : String
  deriving DecidableEq, Repr

/-- Result of the dispatcher handling one strategy outcome: the action state
after the store updates, the alert emitted through `onAlert` (if any), and the
error re-thrown into the execution chain (if any). -/
structure ExecOutcome where
  finalAction : ActionState
  alert : Option ActionAlert
  rethrown : Option RunError
  deriving DecidableEq, Repr

/-- The tail of `#executeAction` (lines 229-253): on strategy success set
`running` while streaming, else `aborted` when the cancellation token fired,
else `complete`; on strategy exception return silently when the token fired,
otherwise mark `failed`, and additionally alert and re-throw when the error is
a classified `ActionCommandError`.  `a` is the action state as observed when
the strategy finished (its `aborted` field is the live signal value). -/
def dispatchOutcome (a : ActionState) (isStreaming : Bool)
    (res : Except RunError Unit) : ExecOutcome :=
  match res with
  | Except.ok _ =>
    { finalAction :=
        { a with status :=
            if isStreaming then ActionStatus.running
            else if a.aborted then ActionStatus.aborted
            else ActionStatus.complete }
      alert := none
      rethrown := none }
  | Except.error e =>
    if a.aborted then
      { finalAction := a, alert := none, rethrown := none }
    else
      let failedA : ActionState :=
        { a with status := ActionStatus.failed, error := some "Action failed" }
      match e with
      | RunError.commandError h o =>
        { finalAction := failedA
          alert := some { type := "error", title := "Dev Server Failed",
                          description := h, content := o }
          rethrown := some (RunError.commandError h o) }
      | RunError.genericError _ =>
        { finalAction := failedA, alert := none, rethrown := none }

/-- The `.catch` handler installed on the non-blocking `start` action promise
(lines 191-209): identical to the dispatcher's catch path but it never
re-throws. -/
def startHandlerCatch (a : ActionState) (e : RunError) : ExecOutcome :=
  if a.aborted then
    { finalAction := a, alert := none, rethrown := none }
  else
    let failedA : ActionState :=
      { a with status := ActionStatus.failed, error := some "Action failed" }
    match e with
    | RunError.commandError h o =>
      { finalAction := failedA
        alert := some { type := "error", title := "Dev Server Failed",
                        description := h, content := o }
        rethrown := none }
    | RunError.genericError _ =>
      { finalAction := failedA, alert := none, rethrown := none }

/-- Response of the external shell collaborator's `executeCommand`. -/
structure ShellResp where
  exitCode : Int
  output : String
  deriving DecidableEq, Repr

/-- `#runShellAction`: throw a classified error with header
`"Failed To Execute Shell Command"` when `resp?.exitCode != 0` (which also
fires when the response is absent), with the captured output or the fallback
`"No Output Available"` when the output is falsy (empty). -/
def runShellAction (resp : Option ShellResp) : Except RunError Unit :=
  match resp with
  | none =>
    Except.error (RunError.commandError "Failed To Execute Shell Command"
      "No Output Available")
  | some r =>
    if r.exitCode ≠ 0 then
      Except.error (RunError.commandError "Failed To Execute Shell Command"
        (if r.output = "" then "No Output Available" else r.output))
    else
      Except.ok ()

/-- `#runStartAction`: same as the shell strategy but with header
`"Failed To Start Application"`. -/
def runStartAction (resp : Option ShellResp) : Except RunError Unit :=
  match resp with
  | none =>
    Except.error (RunError.commandError "Failed To Start Application"
      "No Output Available")
  | some r =>
    if r.exitCode ≠ 0 then
      Except.error (RunError.commandError "Failed To Start Application"
        (if r.output = "" then "No Output Available" else r.output))
    else
      Except.ok ()

/-- Successful build result (`#runBuildAction`'s return value). -/
structure BuildOutput where
  path : String
  exitCode : Int
  output : String
  deriving DecidableEq, Repr

/-- `#runBuildAction`: nonzero exit throws a classified error with header
`"Build Failed"`; on success returns the dist path, exit code and output.
The external `nodePath.join(workdir, 'dist')` collaborator is embedded as
separator concatenation. -/
def runBuildAction (workdir : String) (exitCode : Int) (output : String) :
    Except RunError BuildOutput :=
  if exitCode ≠ 0 then
    Except.error (RunError.commandError "Build Failed"
      (if output = "" then "No Output Available" else output))
  else
    Except.ok { path := workdir ++ "/dist", exitCode := exitCode, output := output }

/-- The composition of the `shell` case of `#executeAction` with the shared
success/catch tail. -/
def executeShellAction (a : ActionState) (isStreaming : Bool)
    (resp : Option ShellResp) : ExecOutcome :=
  dispatchOutcome a isStreaming (runShellAction resp)

/-- The `BoltAction` fragment carried by `ActionCallbackData.action`: the
fields the orchestrator reads from it. -/
structure ActionData where
  type : ActionType
  content : String
  deriving DecidableEq, Repr

/-- `ActionCallbackData` from the message parser. -/
structure ActionCallbackData where
  actionId : String
  action : ActionData
  deriving DecidableEq, Repr

/-- One unit of work appended to the serialized execution chain by
`runAction`. -/
structure ChainUnit where
  actionId : String
  isStreaming : Bool
  deriving DecidableEq, Repr

/-- The orchestrator state touched by `addAction` / `runAction`: the
`actions` map store and the units so far appended to the serialized
`#currentExecutionPromise` chain. -/
structure RunnerState where
  actions : String → Option ActionState
  chain : List ChainUnit

/-- `this.actions.setKey(id, v)`. -/
def setKey (m : String → Option ActionState) (id : String) (v : ActionState) :
    String → Option ActionState :=
  fun k => if k = id then some v else m k

/-- Modelled from the spec: the `unreachable` helper imported from
`~/utils/unreachable` is not under src/; per the spec it is a defensive trap
that raises with the given message, embedded here as the error branch of
`Except`. -/
def unreachableTrap (msg : String) : Except String RunnerState :=
  Except.error msg

/-- `addAction`: idempotent streaming upsert.  A known id with changed
content has its content updated in place; a known id with identical content
is a no-op; an unknown id is registered `pending`, unexecuted, with a fresh
(unfired) cancellation token.  (The scheduled later transition to `running`
happens when the dispatcher picks the action up and is modelled there.) -/
def addAction (s : RunnerState) (d : ActionCallbackData) : RunnerState :=
  match s.actions d.actionId with
  | some a =>
    if a.content ≠ d.action.content then
      { s with actions := setKey s.actions d.actionId { a with content := d.action.content } }
    else s
  | none =>
    let fresh : ActionState :=
      { type := d.action.type
        content := d.action.content
        status := ActionStatus.pending
        error := none
        executed := false
        aborted := false }
    { s with actions := setKey s.actions d.actionId fresh }

/-- `runAction` (the commit entry point), up to the synchronous store/chain
effects: unknown id hits the `unreachable` trap; an `executed` action is a
no-op; a streaming commit of a non-`file` action is a no-op; otherwise the
action is merged with the incoming data, `executed` is set to `!isStreaming`,
and exactly one unit of work is appended to the tail of the chain. -/
def runAction (s : RunnerState) (d : ActionCallbackData) (isStreaming : Bool) :
    Except String RunnerState :=
  match s.actions d.actionId with
  | none => unreachableTrap ("Action " ++ d.actionId ++ " not found")
  | some action =>
    if action.executed then Except.ok s
    else if isStreaming && action.type ≠ ActionType.file then Except.ok s
    else Except.ok
      { actions := setKey s.actions d.actionId
          { action with
            type := d.action.type
            content := d.action.content
            executed := !isStreaming }
        chain := s.chain ++ [ChainUnit.mk d.actionId isStreaming] }

/-- Settlement state of a JS promise in the chain. -/
inductive PState
  | resolved
  | rejected (e : RunError)
  deriving DecidableEq, Repr

/-- `p.then(f)`: `f` runs exactly when `p` is resolved; a rejection passes
through untouched.  Returns the resulting promise state and whether `f` ran. -/
def pThen (p : PState) (f : Unit → PState) : PState × Bool :=
  match p with
  | PState.resolved => (f (), true)
  | PState.rejected e => (PState.rejected e, false)

/-- `p.catch(log)`: the handler runs exactly when `p` is rejected and the
result is resolved either way.  Returns the resulting promise state and the
error the handler logged, if any. -/
def pCatch (p : PState) : PState × Option RunError :=
  match p with
  | PState.resolved => (PState.resolved, none)
  | PState.rejected e => (PState.resolved, some e)

/-- One queued unit of work with the strategy outcome its execution will
observe. -/
structure WorkItem where
  action : ActionState
  isStreaming : Bool
  result : Except RunError Unit
  deriving Repr

/-- `#executeAction` as a promise: rejected exactly when the dispatcher
re-throws. -/
def execPromise (w : WorkItem) : PState :=
  match (dispatchOutcome w.action w.isStreaming w.result).rethrown with
  | some e => PState.rejected e
  | none => PState.resolved

/-- One `chain = chain.then(() => executeAction(...)).catch(log)` step:
returns the new chain state, whether the unit's work actually ran, and the
error logged by the catch site, if any. -/
def chainStep (p : PState) (w : WorkItem) : PState × Bool × Option RunError :=
  let t := pThen p fun _ => execPromise w
  let c := pCatch t.1
  (c.1, t.2, c.2)

/-- Running a sequence of committed units through the serialized chain,
starting from chain state `p`: returns the final chain state and, per unit,
whether its work ran. -/
def runChain (p : PState) : List WorkItem → PState × List Bool
  | [] => (p, [])
  | w :: ws =>
    let st := chainStep p w
    let rest := runChain st.1 ws
    (rest.1, st.2.1 :: rest.2)

/-- `#runNpmInstallAction`'s prefix normalization of the action content. -/
def normalizedCommand (content : String) : String :=
  if jsStartsWith content "npm install" then jsSlice content ("npm install".length)
  else if jsStartsWith content "npm i" then jsSlice content ("npm i".length)
  else content

/-- Outcome of `#runNpmInstallAction`: either a logged no-op or a delegation
to the shell strategy with rewritten content. -/
inductive NpmInstallOutcome
  | noop
  | shellDelegate (content : String)
  deriving DecidableEq, Repr

/-- `#runNpmInstallAction`: strip a leading `npm install` / `npm i` prefix,
no-op when the remainder mentions `convex` as a whole word, otherwise
delegate to the shell strategy with content `npm install <normalized>`. -/
def runNpmInstallAction (content : String) : NpmInstallOutcome :=
  let n := normalizedCommand content
  if hasWordConvex n.data then NpmInstallOutcome.noop
  else NpmInstallOutcome.shellDelegate ("npm install " ++ n)

/-- What the `catch` block of `#runToolUseAction` does with an exception
(identified by its `toString()` text): the message resolved into the pending
tool-call future, and the error re-thrown to the dispatcher. -/
structure ToolCatchResult where
  resolvedMessage : String
  rethrown : String
  deriving DecidableEq, Repr

/-- The `catch` block of `#runToolUseAction`: build a message guaranteed to
start with `Error:` (prepending `Error: ` when missing), resolve the pending
future with it, and re-throw the original exception. -/
def runToolUseCatch (e : String) : ToolCatchResult :=
  let message := if jsStartsWith e "Error:" then e else "Error: " ++ e
  { resolvedMessage := message, rethrown := e }

/-- `BANNED_LINES` from the source. -/
def BANNED_LINES : List String :=
  [ "Preparing Convex functions..."
  , "Checking that documents match your schema..."
  , "transforming ("
  , "computing gzip size" ]

/-- The line filter of `cleanConvexOutput`: keep a line exactly when it
includes none of the banned substrings. -/
def keepLine (line : List Char) : Bool :=
  ! BANNED_LINES.any fun banned => jsIncludes banned.data line

/-- `cleanConvexOutput`: pass anything through unmodified unless the command
is `npm run lint`; for that command, normalize the first CR/LF occurrences
(JS `replace` with a string pattern is first-occurrence only), split into
lines, drop lines containing a banned substring, and re-join. -/
def cleanConvexOutput (command output : String) : String :=
  if command ≠ "npm run lint" then output
  else
    let normalizedNewlines := jsReplaceFirst (jsReplaceFirst output "\r\n" "\n") "\r" "\n"
    ⟨joinNl ((splitNl normalizedNewlines.data).filter keepLine)⟩

/-- Concrete unexecuted, unaborted pending action used to instantiate
theorems with hypotheses. -/
def sampleAction : ActionState :=
  { type := ActionType.shell
    content := "ls"
    status := ActionStatus.pending
    error := none
    executed := false
    aborted := false }

theorem isPrefixOf_append_self (l m : List Char) : l.isPrefixOf (l ++ m) = true := by
  induction l with
  | nil => simp [List.isPrefixOf]
  | cons c cs ih => simp [List.isPrefixOf, ih]

/-- Claim C1: when an action's cancellation token has fired (through the abort
capability installed by `addAction`) before its strategy throws, the
dispatcher's catch path leaves the state exactly as the capability set it —
status `aborted`, never `failed` — emits no alert and re-throws nothing. -/
theorem aborted_strategy_throw_swallowed (a : ActionState) (isStreaming : Bool)
    (e : RunError) :
    dispatchOutcome (abortAction a) isStreaming (Except.error e)
      = { finalAction := abortAction a, alert := none, rethrown := none }
    ∧ (abortAction a).status = ActionStatus.aborted := by
  constructor
  · simp [dispatchOutcome, abortAction]
  · rfl

/-- Claim C4: for a non-streaming, non-aborted shell action, exit code 0 ends
in status `complete`; a nonzero exit code makes the strategy throw a
classified error with header `Failed To Execute Shell Command` and the
captured output (or `No Output Available` when the output is empty), and the
action ends in status `failed`. -/
theorem shell_exit_code_outcomes (a : ActionState) (r : ShellResp)
    (hab : a.aborted = false) :
    (r.exitCode = 0 →
      runShellAction (some r) = Except.ok ()
      ∧ (executeShellAction a false (some r)).finalAction.status
          = ActionStatus.complete)
    ∧ (r.exitCode ≠ 0 →
      runShellAction (some r) = Except.error (RunError.commandError
          "Failed To Execute Shell Command"
          (if r.output = "" then "No Output Available" else r.output))
      ∧ (executeShellAction a false (some r)).finalAction.status
          = ActionStatus.failed) := by
  constructor
  · intro h0
    refine ⟨by simp [runShellAction, h0], ?_⟩
    simp [executeShellAction, runShellAction, h0, dispatchOutcome, hab]
  · intro hne
    refine ⟨by simp [runShellAction, hne], ?_⟩
    simp [executeShellAction, runShellAction, hne, dispatchOutcome, hab]

theorem shell_exit_code_outcomes_witness :
    (executeShellAction sampleAction false
        (some { exitCode := 0, output := "ok" })).finalAction.status
      = ActionStatus.complete
    ∧ (executeShellAction sampleAction false
        (some { exitCode := 1, output := "" })).finalAction.status
      = ActionStatus.failed :=
  ⟨((shell_exit_code_outcomes sampleAction { exitCode := 0, output := "ok" } rfl).1 rfl).2,
   ((shell_exit_code_outcomes sampleAction { exitCode := 1, output := "" } rfl).2
      (by decide)).2⟩

/-- Claim C5: on the dispatcher's failure path (cancellation token not fired),
the alert callback fires exactly when the exception is a classified
`ActionCommandError`, and every exception marks the action `failed`; the same
holds for the out-of-band `start` failure handler. -/
theorem alert_iff_classified_error (a : ActionState) (isStreaming : Bool)
    (e : RunError) (hab : a.aborted = false) :
    ((dispatchOutcome a isStreaming (Except.error e)).alert.isSome
        = e.isCommandError)
    ∧ (dispatchOutcome a isStreaming (Except.error e)).finalAction.status
        = ActionStatus.failed
    ∧ ((startHandlerCatch a e).alert.isSome = e.isCommandError)
    ∧ (startHandlerCatch a e).finalAction.status = ActionStatus.failed := by
  cases e <;>
    simp [dispatchOutcome, startHandlerCatch, hab, RunError.isCommandError]

theorem alert_iff_classified_error_witness :
    ((dispatchOutcome sampleAction false
        (Except.error (RunError.commandError "Build Failed" "boom"))).alert.isSome
      = (RunError.commandError "Build Failed" "boom").isCommandError)
    ∧ ((dispatchOutcome sampleAction false
        (Except.error (RunError.genericError "oops"))).alert.isSome
      = (RunError.genericError "oops").isCommandError) :=
  ⟨(alert_iff_classified_error sampleAction false
      (RunError.commandError "Build Failed" "boom") rfl).1,
   (alert_iff_classified_error sampleAction false
      (RunError.genericError "oops") rfl).1⟩

/-- Claim C9: committing an action identifier that was never registered hits
the `unreachable` defensive trap and raises, producing no updated state and no
chain append. -/
theorem commit_unknown_id_raises (s : RunnerState) (d : ActionCallbackData)
    (isStreaming : Bool) (hnone : s.actions d.actionId = none) :
    runAction s d isStreaming
      = Except.error ("Action " ++ d.actionId ++ " not found") := by
  simp [runAction, hnone, unreachableTrap]

theorem commit_unknown_id_raises_witness :
    runAction { actions := fun _ => none, chain := [] }
        { actionId := "a1", action := { type := ActionType.shell, content := "ls" } }
        false
      = Except.error ("Action " ++ "a1" ++ " not found") :=
  commit_unknown_id_raises
    { actions := fun _ => none, chain := [] }
    { actionId := "a1", action := { type := ActionType.shell, content := "ls" } }
    false rfl

/-- Claim C2: for a registered action, commit is a no-op when `executed` is
already true, and when `isStreaming` is true with a non-`file` type; in every
other case it sets `executed` to the negation of `isStreaming` and appends
exactly one unit of work to the tail of the execution chain. -/
theorem commit_noop_or_single_append (s : RunnerState) (d : ActionCallbackData)
    (isStreaming : Bool) (a : ActionState)
    (hreg : s.actions d.actionId = some a) :
    (a.executed = true → runAction s d isStreaming = Except.ok s)
    ∧ (isStreaming = true → a.type ≠ ActionType.file →
        runAction s d isStreaming = Except.ok s)
    ∧ (a.executed = false → (isStreaming = false ∨ a.type = ActionType.file) →
        ∃ s2, runAction s d isStreaming = Except.ok s2
          ∧ s2.actions d.actionId = some
              { a with type := d.action.type
                       content := d.action.content
                       executed := !isStreaming }
          ∧ s2.chain = s.chain ++ [ChainUnit.mk d.actionId isStreaming]) := by
  refine ⟨?_, ?_, ?_⟩
  · intro hx
    simp [runAction, hreg, hx]
  · intro hs ht
    rcases hx : a.executed with _ | _
    · simp [runAction, hreg, hx, hs, ht]
    · simp [runAction, hreg, hx]
  · intro hx hor
    refine ⟨RunnerState.mk
        (setKey s.actions d.actionId
          { a with type := d.action.type
                   content := d.action.content
                   executed := !isStreaming })
        (s.chain ++ [ChainUnit.mk d.actionId isStreaming]), ?_, ?_, ?_⟩
    · have hcond : (isStreaming && !(a.type = ActionType.file)) = false := by
        rcases hor with h | h
        · simp [h]
        · simp [h]
      simp [runAction, hreg, hx, hcond]
    · simp [setKey]
    · rfl

theorem commit_noop_or_single_append_witness :
    (runAction
        { actions := fun k => if k = "a1" then some sampleAction else none
          chain := [] }
        { actionId := "a1", action := { type := ActionType.shell, content := "ls -la" } }
        false
      = Except.ok
        { actions := setKey
            (fun k => if k = "a1" then some sampleAction else none) "a1"
            { sampleAction with type := ActionType.shell
                                content := "ls -la"
                                executed := true }
          chain := [ChainUnit.mk "a1" false] }) := by
  obtain ⟨s2, hrun, hact, hchain⟩ :=
    (commit_noop_or_single_append
      { actions := fun k => if k = "a1" then some sampleAction else none
        chain := [] }
      { actionId := "a1", action := { type := ActionType.shell, content := "ls -la" } }
      false sampleAction (by simp)).2.2 rfl (Or.inl rfl)
  simp [runAction, setKey, sampleAction] at hrun ⊢

/-- Claim C3: starting from the resolved initial chain, every committed unit
of work runs (a throwing unit never prevents later units from executing), the
chain state after any sequence of units is resolved — so the `await` in
`runAction` never rejects because of a strategy failure — and the chain-level
catch site logs exactly the error the dispatcher re-threw. -/
theorem chain_survives_unit_failure (ws : List WorkItem) :
    (runChain PState.resolved ws).1 = PState.resolved
    ∧ (runChain PState.resolved ws).2 = List.replicate ws.length true
    ∧ (∀ w : WorkItem, (chainStep PState.resolved w).2.2
        = (dispatchOutcome w.action w.isStreaming w.result).rethrown) := by
  have hcatch : ∀ p : PState, (pCatch p).1 = PState.resolved := by
    intro p
    cases p <;> rfl
  have hstep : ∀ (p : PState) (w : WorkItem), (chainStep p w).1 = PState.resolved := by
    intro p w
    simp [chainStep, hcatch]
  have main : ∀ vs : List WorkItem,
      (runChain PState.resolved vs).1 = PState.resolved
      ∧ (runChain PState.resolved vs).2 = List.replicate vs.length true := by
    intro vs
    induction vs with
    | nil => exact ⟨rfl, rfl⟩
    | cons w vs ih =>
      constructor
      · simp only [runChain]
        rw [hstep]
        exact ih.1
      · simp only [runChain]
        rw [hstep]
        simp [List.replicate, chainStep, pThen, ih.2]
  refine ⟨(main ws).1, (main ws).2, ?_⟩
  intro w
  cases hr : (dispatchOutcome w.action w.isStreaming w.result).rethrown <;>
    simp [chainStep, pThen, pCatch, execPromise, hr]

/-- Claim C6 as stated is refuted: for a toolUse action whose cancellation
token has fired, the re-thrown exception is swallowed by the dispatcher's
abort check, so the action ends `aborted`, not `failed`. -/
theorem toolUse_failed_recording_counterexample :
    (dispatchOutcome (abortAction sampleAction) false
        (Except.error (RunError.genericError ((runToolUseCatch "boom").rethrown)))
      ).finalAction.status ≠ ActionStatus.failed := by
  simp [dispatchOutcome, abortAction, runToolUseCatch, sampleAction]

/-- Claim C6 (amended): for every toolUse action whose tool dispatch raises,
the bridge resolves the pending future with a message that starts with the
literal prefix `Error:` (keeping the raw text when it already has the prefix,
prepending otherwise) and re-raises the same exception; when the action's
cancellation token has not fired, the dispatcher's generic failure path then
records the action as `failed` with no alert. -/
theorem toolUse_error_bridge (e : String) (a : ActionState)
    (hab : a.aborted = false) :
    jsStartsWith (runToolUseCatch e).resolvedMessage "Error:" = true
    ∧ (runToolUseCatch e).rethrown = e
    ∧ (jsStartsWith e "Error:" = true → (runToolUseCatch e).resolvedMessage = e)
    ∧ (jsStartsWith e "Error:" = false →
        (runToolUseCatch e).resolvedMessage = "Error: " ++ e)
    ∧ (dispatchOutcome a false
        (Except.error (RunError.genericError ((runToolUseCatch e).rethrown)))
      ).finalAction.status = ActionStatus.failed
    ∧ (dispatchOutcome a false
        (Except.error (RunError.genericError ((runToolUseCatch e).rethrown)))
      ).alert = none := by
  have hpre : jsStartsWith ("Error: " ++ e) "Error:" = true := by
    show ("Error:".data.isPrefixOf ("Error: " ++ e).data) = true
    rw [String.data_append]
    have h7 : ("Error: ").data = "Error:".data ++ [' '] := by decide
    rw [h7, List.append_assoc]
    exact isPrefixOf_append_self _ _
  refine ⟨?_, rfl, ?_, ?_, ?_, ?_⟩
  · cases hsw : jsStartsWith e "Error:" <;>
      simp [runToolUseCatch, hsw, hpre]
  · intro hsw
    simp [runToolUseCatch, hsw]
  · intro hsw
    simp [runToolUseCatch, hsw]
  · simp [dispatchOutcome, hab]
  · simp [dispatchOutcome, hab]

theorem toolUse_error_bridge_witness :
    jsStartsWith (runToolUseCatch "boom").resolvedMessage "Error:" = true
    ∧ (dispatchOutcome sampleAction false
        (Except.error (RunError.genericError ((runToolUseCatch "boom").rethrown)))
      ).finalAction.status = ActionStatus.failed :=
  ⟨(toolUse_error_bridge "boom" sampleAction rfl).1,
   (toolUse_error_bridge "boom" sampleAction rfl).2.2.2.2.1⟩

/-- Claim C7: an `npmInstall` content starting with `npm install` or `npm i`
has that prefix stripped (leading space retained), the remainder is
re-wrapped as `npm install <remainder>` before delegating to the shell
strategy — so `npm install lodash` delegates with exactly
`npm install  lodash` — and a remainder containing `convex` as a whole word
makes the action a no-op with no shell invocation. -/
theorem npmInstall_normalization :
    runNpmInstallAction "npm install lodash"
      = NpmInstallOutcome.shellDelegate "npm install  lodash"
    ∧ (∀ content : String, jsStartsWith content "npm install" = true →
        normalizedCommand content = jsSlice content ("npm install".length))
    ∧ (∀ content : String, jsStartsWith content "npm install" = false →
        jsStartsWith content "npm i" = true →
        normalizedCommand content = jsSlice content ("npm i".length))
    ∧ (∀ content : String, hasWordConvex (normalizedCommand content).data = true →
        runNpmInstallAction content = NpmInstallOutcome.noop)
    ∧ (∀ content : String, hasWordConvex (normalizedCommand content).data = false →
        runNpmInstallAction content
          = NpmInstallOutcome.shellDelegate ("npm install " ++ normalizedCommand content)) := by
  refine ⟨by decide, ?_, ?_, ?_, ?_⟩
  · intro content h
    simp [normalizedCommand, h]
  · intro content hno hyes
    simp [normalizedCommand, hno, hyes]
  · intro content h
    simp [runNpmInstallAction, h]
  · intro content h
    simp [runNpmInstallAction, h]

theorem npmInstall_normalization_witness :
    runNpmInstallAction "npm install convex" = NpmInstallOutcome.noop
    ∧ normalizedCommand "npm i lodash" = jsSlice "npm i lodash" ("npm i".length)
    ∧ runNpmInstallAction "npm i lodash"
        = NpmInstallOutcome.shellDelegate ("npm install " ++ normalizedCommand "npm i lodash") :=
  ⟨npmInstall_normalization.2.2.2.1 "npm install convex" (by decide),
   npmInstall_normalization.2.2.1 "npm i lodash" (by decide) (by decide),
   npmInstall_normalization.2.2.2.2 "npm i lodash" (by decide)⟩

/-- Claim C10: every classified `ActionCommandError`'s formatted message
begins with `Failed To Execute Shell Command: ` followed by its header, so
build failures (header `Build Failed`) and start failures (header
`Failed To Start Application`) also carry the shell-command prefix, while the
header and output carried by the error remain the strategy-specific values. -/
theorem classified_error_message_format :
    (∀ header output : String,
      jsStartsWith (formattedMessage header output)
        ("Failed To Execute Shell Command: " ++ header) = true)
    ∧ (∀ (workdir output : String) (exitCode : Int), exitCode ≠ 0 →
        runBuildAction workdir exitCode output
          = Except.error (RunError.commandError "Build Failed"
              (if output = "" then "No Output Available" else output)))
    ∧ (∀ r : ShellResp, r.exitCode ≠ 0 →
        runStartAction (some r)
          = Except.error (RunError.commandError "Failed To Start Application"
              (if r.output = "" then "No Output Available" else r.output))) := by
  refine ⟨?_, ?_, ?_⟩
  · intro header output
    show (("Failed To Execute Shell Command: " ++ header).data.isPrefixOf
      (formattedMessage header output).data) = true
    have hdata : (formattedMessage header output).data
        = ("Failed To Execute Shell Command: " ++ header).data
            ++ ("\n\nOutput:\n".data ++ output.data) := by
      simp [formattedMessage, String.data_append, List.append_assoc]
    rw [hdata]
    exact isPrefixOf_append_self _ _
  · intro workdir output exitCode h
    simp [runBuildAction, h]
  · intro r h
    simp [runStartAction, h]

theorem classified_error_message_format_witness :
    jsStartsWith (formattedMessage "Build Failed" "out")
      ("Failed To Execute Shell Command: " ++ "Build Failed") = true
    ∧ runBuildAction "/home/project" 2 ""
        = Except.error (RunError.commandError "Build Failed"
            (if "" = "" then "No Output Available" else ""))
    ∧ runStartAction (some { exitCode := 1, output := "port busy" })
        = Except.error (RunError.commandError "Failed To Start Application"
            (if "port busy" = "" then "No Output Available" else "port busy")) :=
  ⟨classified_error_message_format.1 "Build Failed" "out",
   classified_error_message_format.2.1 "/home/project" "" 2 (by decide),
   classified_error_message_format.2.2 { exitCode := 1, output := "port busy" } (by decide)⟩

theorem splitNl_ne_nil (cs : List Char) : splitNl cs ≠ [] := by
  induction cs with
  | nil => simp [splitNl]
  | cons c rest ih =>
    simp only [splitNl]
    cases h : splitNl rest with
    | nil => simp
    | cons l ls =>
      by_cases hc : c = '\n' <;> simp [hc]

theorem splitNl_no_newline (l : List Char) (h : '\n' ∉ l) : splitNl l = [l] := by
  induction l with
  | nil => rfl
  | cons c rest ih =>
    have hc : c ≠ '\n' := fun he => h (he ▸ List.mem_cons_self c rest)
    have hrest : '\n' ∉ rest := fun hm => h (List.mem_cons_of_mem c hm)
    simp only [splitNl]
    rw [ih hrest]
    simp [hc]

theorem splitNl_append (l m : List Char) (h : '\n' ∉ l) :
    splitNl (l ++ '\n' :: m) = l :: splitNl m := by
  induction l with
  | nil =>
    simp only [List.nil_append, splitNl]
    cases hm : splitNl m with
    | nil => exact absurd hm (splitNl_ne_nil m)
    | cons x xs => simp
  | cons c rest ih =>
    have hc : c ≠ '\n' := fun he => h (he ▸ List.mem_cons_self c rest)
    have hrest : '\n' ∉ rest := fun hmem => h (List.mem_cons_of_mem c hmem)
    simp only [List.cons_append, splitNl, List.append_eq]
    rw [ih hrest]
    simp [hc]

theorem splitNl_joinNl (lines : List (List Char)) (hne : lines ≠ [])
    (h : ∀ l ∈ lines, '\n' ∉ l) : splitNl (joinNl lines) = lines := by
  induction lines with
  | nil => exact absurd rfl hne
  | cons l ls ih =>
    cases ls with
    | nil => exact splitNl_no_newline l (h l (by simp))
    | cons l2 ls2 =>
      have hjoin : joinNl (l :: l2 :: ls2) = l ++ '\n' :: joinNl (l2 :: ls2) := rfl
      rw [hjoin, splitNl_append l _ (h l (by simp))]
      rw [ih (by simp) (fun x hx => h x (List.mem_cons_of_mem l hx))]

theorem joinNl_mem (c : Char) (lines : List (List Char)) (h : c ∈ joinNl lines) :
    c = '\n' ∨ ∃ l ∈ lines, c ∈ l := by
  induction lines with
  | nil => simp [joinNl] at h
  | cons l ls ih =>
    cases ls with
    | nil =>
      exact Or.inr ⟨l, by simp, h⟩
    | cons l2 ls2 =>
      have hjoin : joinNl (l :: l2 :: ls2) = l ++ '\n' :: joinNl (l2 :: ls2) := rfl
      rw [hjoin] at h
      rcases List.mem_append.1 h with h1 | h2
      · exact Or.inr ⟨l, by simp, h1⟩
      · rcases List.mem_cons.1 h2 with h3 | h4
        · exact Or.inl h3
        · rcases ih h4 with h5 | ⟨x, hx, hc⟩
          · exact Or.inl h5
          · exact Or.inr ⟨x, List.mem_cons_of_mem l hx, hc⟩

theorem replaceFirst_no_cr (p rep cs : List Char) (h : '\r' ∉ cs) :
    replaceFirstList ('\r' :: p) rep cs = cs := by
  induction cs with
  | nil => rfl
  | cons c rest ih =>
    have hc : c ≠ '\r' := fun he => h (he ▸ List.mem_cons_self c rest)
    have hrest : '\r' ∉ rest := fun hmem => h (List.mem_cons_of_mem c hmem)
    have hbeq : (('\r' :: p).isPrefixOf (c :: rest)) = false := by
      simp only [List.isPrefixOf, Bool.and_eq_false_iff]
      exact Or.inl (by simp [Ne.symm hc])
    simp only [replaceFirstList, hbeq]
    simp [ih hrest]

/-- Claim C8: for the command `npm run lint`, the output-cleaning function
maps a multi-line output to exactly the lines that include none of the fixed
banned substrings, in their original order; for every other command the
output comes back completely unmodified. -/
theorem clean_lint_output_filters :
    (∀ lines : List (List Char), lines ≠ [] →
      (∀ l ∈ lines, '\n' ∉ l ∧ '\r' ∉ l) →
      cleanConvexOutput "npm run lint" ⟨joinNl lines⟩
        = ⟨joinNl (lines.filter keepLine)⟩)
    ∧ (∀ command output : String, command ≠ "npm run lint" →
        cleanConvexOutput command output = output) := by
  constructor
  · intro lines hne hok
    have hnr : '\r' ∉ joinNl lines := by
      intro hmem
      rcases joinNl_mem '\r' lines hmem with h | ⟨l, hl, hc⟩
      · exact absurd h (by decide)
      · exact (hok l hl).2 hc
    have hsplit : splitNl (joinNl lines) = lines :=
      splitNl_joinNl lines hne fun l hl => (hok l hl).1
    have e1 : jsReplaceFirst ⟨joinNl lines⟩ "\r\n" "\n" = ⟨joinNl lines⟩ := by
      show (⟨replaceFirstList "\r\n".data "\n".data (joinNl lines)⟩ : String)
        = ⟨joinNl lines⟩
      have hd : "\r\n".data = '\r' :: ['\n'] := rfl
      rw [hd, replaceFirst_no_cr _ _ _ hnr]
    have e2 : jsReplaceFirst ⟨joinNl lines⟩ "\r" "\n" = ⟨joinNl lines⟩ := by
      show (⟨replaceFirstList "\r".data "\n".data (joinNl lines)⟩ : String)
        = ⟨joinNl lines⟩
      have hd : "\r".data = '\r' :: ([] : List Char) := rfl
      rw [hd, replaceFirst_no_cr _ _ _ hnr]
    show (if ("npm run lint" : String) ≠ "npm run lint" then (⟨joinNl lines⟩ : String)
      else ⟨joinNl ((splitNl (jsReplaceFirst
        (jsReplaceFirst ⟨joinNl lines⟩ "\r\n" "\n") "\r" "\n").data).filter keepLine)⟩)
      = ⟨joinNl (lines.filter keepLine)⟩
    rw [if_neg (by simp), e1, e2]
    show (⟨joinNl ((splitNl (joinNl lines)).filter keepLine)⟩ : String)
      = ⟨joinNl (lines.filter keepLine)⟩
    rw [hsplit]
  · intro command output h
    simp [cleanConvexOutput, h]

theorem clean_lint_output_filters_witness :
    cleanConvexOutput "npm run lint"
        ⟨joinNl ["hello".data, "transforming (42%)".data, "world".data]⟩
      = ⟨joinNl (["hello".data, "transforming (42%)".data, "world".data].filter keepLine)⟩
    ∧ cleanConvexOutput "echo hi" "transforming (42%)" = "transforming (42%)" :=
  ⟨clean_lint_output_filters.1
      ["hello".data, "transforming (42%)".data, "world".data]
      (by decide) (by decide),
   clean_lint_output_filters.2 "echo hi" "transforming (42%)" (by decide)⟩

end ActionRunner
